import Mathlib

/-!
# Custom cursor controller of `src/App.jsx`

A shallow embedding of the cursor effect of `LensBrosPortfolio` (the first
`useEffect`, lines 33-131): the activation guard, the listener registration,
the five event handlers and the cleanup function.

* The DOM is reduced to what the effect touches: nodes with an identity, the
  elements below the host surface with their tag and attributes, and one
  registry of event listeners.
* The animation library is the output boundary.  A `gsap.set`, `gsap.to`,
  `gsap.fromTo` or `quickTo` call is recorded as the list of property updates
  it issues; the representation keeps, per part and property, the update
  issued last.  Numbers are the decimal literals of the source, as rationals:
  the effect never computes with them.
* The update issued last is not always the one that decides where a property
  comes to rest: no call passes `overwrite`, so tweens of one property run side
  by side.  The timeline section keeps every tween with the time of its call and
  picks the one that ends last.
* A call on a `null` receiver throws a `TypeError`; this is the only way the
  embedded code can fail.
-/

set_option autoImplicit false

namespace LensBros

/-! ## DOM -/

/-- Event types the effect subscribes to. -/
inductive EventType
  | mousemove
  | mousedown
  | mouseup
  | mouseenter
  | mouseleave
  deriving DecidableEq, Repr

/-- An element below the host surface: identity, tag name, attributes. -/
structure Element where
  id : Nat
  tag : String
  attrs : List (String × String)
  deriving DecidableEq, Repr

/-- The call `el.getAttribute(name)`: the value, or `null` when absent. -/
def Element.getAttribute (el : Element) (name : String) : Option String :=
  (el.attrs.find? (fun a => a.1 = name)).map (fun a => a.2)

/-- A node a ref can point to: identity and the elements below it, in
document order. -/
structure Node where
  id : Nat
  descendants : List Element
  deriving DecidableEq, Repr

/-- The selector `'a, button, input, textarea, [data-cursor]'`. -/
def hoverableSelector (el : Element) : Bool :=
  el.tag = "a" || el.tag = "button" || el.tag = "input" || el.tag = "textarea"
    || (el.getAttribute "data-cursor").isSome

/-- Errors of the embedded JavaScript. -/
inductive JsError
  | typeError
  deriving DecidableEq, Repr

/-- The call `root.querySelectorAll(...)` of line 54 on a possibly null receiver. -/
def querySelectorAll (recv : Option Node) : Except JsError (List Element) :=
  match recv with
  | none => .error .typeError
  | some n => .ok (n.descendants.filter hoverableSelector)

/-- The JavaScript `a || b` on a string-or-null left operand. -/
def orElse (a : Option String) (b : String) : String :=
  match a with
  | none => b
  | some s => if s = "" then b else s

/-! ## Output boundary: property updates -/

/-- Parts of the cursor representation: the cursor node, its `.cursor-icon`
child and its `.cursor-ring` child (lines 152-159). -/
inductive Part
  | cursor
  | icon
  | ring
  deriving DecidableEq, Repr

/-- Properties the effect animates. -/
inductive Property
  | xPercent
  | yPercent
  | x
  | y
  | scale
  | backgroundColor
  | borderColor
  | rotate
  | opacity
  deriving DecidableEq, Repr

/-- A property value: a number or a CSS string. -/
inductive Value
  | num (q : ℚ)
  | str (s : String)
  deriving DecidableEq, Repr

/-- One property update issued to the representation: the part and property,
the explicit start value of a `fromTo` if any, the target value, the duration
in seconds and the easing if given. -/
structure Update where
  part : Part
  prop : Property
  start : Option Value
  goal : Value
  duration : ℚ
  ease : Option String
  deriving DecidableEq, Repr

/-- The property bag of a tween call, without `duration` and `ease`. -/
abbrev Vars := List (Property × Value)

/-- The call `gsap.set(target, vars)`: immediate, zero duration. -/
def gsapSet (part : Part) (vars : Vars) : List Update :=
  vars.map (fun v => ⟨part, v.1, none, v.2, 0, none⟩)

/-- The call `gsap.to(target, vars)` with its `duration` and optional `ease`. -/
def gsapTo (part : Part) (vars : Vars) (duration : ℚ) (ease : Option String) : List Update :=
  vars.map (fun v => ⟨part, v.1, none, v.2, duration, ease⟩)

/-- The call `gsap.fromTo(target, fromVars, toVars)`. -/
def gsapFromTo (part : Part) (fromVars toVars : Vars) (duration : ℚ) (ease : Option String) :
    List Update :=
  toVars.map (fun v => ⟨part, v.1, fromVars.lookup v.1, v.2, duration, ease⟩)

/-- The setter returned by `gsap.quickTo(target, prop, vars)`, applied to a value. -/
def quickTo (part : Part) (prop : Property) (duration : ℚ) (ease : String) (value : ℚ) :
    List Update :=
  [⟨part, prop, none, .num value, duration, some ease⟩]

/-- The representation: per part and property, the update issued last, that
is, the target and duration of the latest call.  Which tween decides the value
the property rests at is the matter of `restingTween`. -/
abbrev Rep := Part → Property → Option Update

/-- Nothing issued yet. -/
def Rep.empty : Rep := fun _ _ => none

/-- Record one update as the one issued last on its part and property.  This
is a record of calls, not of the library stopping the earlier tween. -/
def applyUpdate (r : Rep) (u : Update) : Rep :=
  fun p q => if p = u.part ∧ q = u.prop then some u else r p q

/-- Record a list of updates in order. -/
def applyAll (r : Rep) (us : List Update) : Rep :=
  us.foldl applyUpdate r

/-! ## Handlers -/

/-- The fields of a mouse event the handlers read. -/
structure MouseEvent where
  clientX : ℚ
  clientY : ℚ
  deriving DecidableEq, Repr

/-- Line 43: `xTo`. -/
def xTo : ℚ → List Update := quickTo .cursor .x 0.18 "power3.out"

/-- Line 44: `yTo`. -/
def yTo : ℚ → List Update := quickTo .cursor .y 0.18 "power3.out"

/-- Lines 46-50: `moveHandler`. -/
def moveHandler (e : MouseEvent) : List Update :=
  xTo e.clientX ++ yTo e.clientY

/-- Lines 56-65: the `mouseenter` listener of a hoverable element. -/
def mouseenter (el : Element) : List Update :=
  let mode := orElse (el.getAttribute "data-cursor") "tap"
  if mode = "view" then
    gsapTo .cursor [(.scale, .num 1.25), (.backgroundColor, .str "rgba(251, 191, 36, 0.15)"),
      (.borderColor, .str "rgb(245, 158, 11)")] 0.2 none
    ++ gsapTo .icon [(.rotate, .num 8)] 0.2 none
  else
    gsapTo .cursor [(.scale, .num 1.15), (.backgroundColor, .str "rgba(15, 23, 42, 0.08)"),
      (.borderColor, .str "rgb(71, 85, 105)")] 0.2 none
    ++ gsapTo .icon [(.rotate, .num 0)] 0.2 none

/-- Lines 66-69: the `mouseleave` listener of a hoverable element. -/
def mouseleave (_el : Element) : List Update :=
  gsapTo .cursor [(.scale, .num 0.95), (.backgroundColor, .str "rgba(255,255,255,0.5)"),
    (.borderColor, .str "rgba(15,23,42,0.2)")] 0.25 none
  ++ gsapTo .icon [(.rotate, .num 0)] 0.25 none

/-- Lines 73-81: `downHandler`. -/
def downHandler : List Update :=
  gsapTo .cursor [(.scale, .num 0.8)] 0.08 none
  ++ gsapFromTo .ring [(.scale, .num 0.8), (.opacity, .num 0.9)]
      [(.scale, .num 1.5), (.opacity, .num 0)] 0.35 (some "power2.out")

/-- Line 82: `upHandler`. -/
def upHandler : List Update :=
  gsapTo .cursor [(.scale, .num 1.0)] 0.12 none

/-- The function objects the effect creates: the three named handlers and,
per hoverable element, its two anonymous listeners. -/
inductive Callback
  | move
  | down
  | up
  | enter (el : Element)
  | leave (el : Element)
  deriving DecidableEq, Repr

/-- Calling a function object with an event. -/
def Callback.call (cb : Callback) (e : MouseEvent) : List Update :=
  match cb with
  | .move => moveHandler e
  | .down => downHandler
  | .up => upHandler
  | .enter el => mouseenter el
  | .leave el => mouseleave el

/-! ## State -/

/-- One registered listener: the node it is registered on, the event type and
the function object. -/
structure Listener where
  target : Nat
  type : EventType
  callback : Callback
  deriving DecidableEq, Repr

/-- The state the effect acts on: the listener registry, the cursor
representation, the trace of all updates issued to it, and whether the
`gsap.context` of the page animations is live. -/
structure State where
  listeners : List Listener
  rep : Rep
  log : List Update
  ctx : Bool

/-- The page before the effect ran. -/
def State.init : State := ⟨[], Rep.empty, [], false⟩

/-- Issue updates to the representation. -/
def issue (st : State) (us : List Update) : State :=
  ⟨st.listeners, applyAll st.rep us, st.log ++ us, st.ctx⟩

/-- Register a listener on a node; every function object of the effect is
fresh, so the registry grows by one. -/
def addListener (st : State) (target : Nat) (type : EventType) (cb : Callback) : State :=
  ⟨st.listeners ++ [⟨target, type, cb⟩], st.rep, st.log, st.ctx⟩

/-- The call `recv.addEventListener(type, cb)` on a possibly null receiver. -/
def addEventListener (recv : Option Node) (type : EventType) (cb : Callback) (st : State) :
    Except JsError State :=
  match recv with
  | none => .error .typeError
  | some n => .ok (addListener st n.id type cb)

/-- The call `recv.removeEventListener(type, cb)` on a possibly null receiver:
the listener with this target, type and function object leaves the registry. -/
def removeEventListener (recv : Option Node) (type : EventType) (cb : Callback) (st : State) :
    Except JsError State :=
  match recv with
  | none => .error .typeError
  | some n => .ok ⟨st.listeners.filter (fun l => l ≠ ⟨n.id, type, cb⟩), st.rep, st.log, st.ctx⟩

/-- Deliver an event of a type at a node: every listener registered there for
that type is called, in registration order. -/
def dispatch (st : State) (target : Nat) (type : EventType) (e : MouseEvent) : State :=
  (st.listeners.filter (fun l => l.target = target ∧ l.type = type)).foldl
    (fun s l => issue s (l.callback.call e)) st

/-! ## The effect -/

/-- What the effect reads from its environment when it runs: the result of
`window.matchMedia('(pointer: fine)').matches` and the two refs. -/
structure Env where
  pointerFine : Bool
  cursorRef : Option Node
  rootRef : Option Node

/-- The guard of line 38. -/
def Env.enabled (env : Env) : Bool :=
  env.pointerFine && env.cursorRef.isSome && env.rootRef.isSome

/-- The variables of line 36 as the cleanup closure sees them: `none` is
`undefined`. -/
structure Handlers where
  moveHandler : Option Callback
  downHandler : Option Callback
  upHandler : Option Callback
  deriving DecidableEq, Repr

/-- Lines 55-70: the body of `hoverables.forEach`. -/
def attachHover (st : State) (el : Element) : State :=
  addListener (addListener st el.id .mouseenter (.enter el)) el.id .mouseleave (.leave el)

/-- Lines 35-86: the cursor part of the effect. -/
def activate (env : Env) (st : State) : Except JsError (State × Handlers) :=
  if env.enabled then do
    let root := env.rootRef
    let st1 := issue st (gsapSet .cursor
      [(.xPercent, .num (-50)), (.yPercent, .num (-50)), (.scale, .num 0.9)])
    let st2 ← addEventListener root .mousemove .move st1
    let hoverables ← querySelectorAll root
    let st3 := hoverables.foldl attachHover st2
    let st4 ← addEventListener root .mousedown .down st3
    let st5 ← addEventListener root .mouseup .up st4
    pure (st5, ⟨some .move, some .down, some .up⟩)
  else
    pure (st, ⟨none, none, none⟩)

/-- Lines 89-121: `gsap.context(...)`; the page animations it creates do not
touch the cursor representation, only the context becomes live. -/
def createContext (st : State) : State :=
  ⟨st.listeners, st.rep, st.log, true⟩

/-- Line 124: `ctx.revert()`. -/
def revertContext (st : State) : State :=
  ⟨st.listeners, st.rep, st.log, false⟩

/-- Lines 33-122: the effect up to its `return`, giving the state and the
variables the cleanup closure captures. -/
def effect (env : Env) (st : State) : Except JsError (State × Handlers) := do
  let r ← activate env st
  pure (createContext r.1, r.2)

/-- One guarded removal of the cleanup: `if (h) rootRef.current.removeEventListener(type, h)`. -/
def removeIfDefined (h : Option Callback) (rootNow : Option Node) (type : EventType)
    (st : State) : Except JsError State :=
  match h with
  | none => pure st
  | some cb => removeEventListener rootNow type cb st

/-- Lines 123-130: the cleanup function, run with the value `rootRef.current`
has at that time. -/
def cleanup (hs : Handlers) (rootNow : Option Node) (st : State) : Except JsError State :=
  let st0 := revertContext st
  if rootNow.isSome then do
    let st1 ← removeIfDefined hs.moveHandler rootNow .mousemove st0
    let st2 ← removeIfDefined hs.downHandler rootNow .mousedown st1
    removeIfDefined hs.upHandler rootNow .mouseup st2
  else
    pure st0

/-- The effect followed, later, by its cleanup. -/
def lifecycle (env : Env) (rootNow : Option Node) (st : State) : Except JsError State := do
  let r ← effect env st
  cleanup r.2 rootNow r.1

/-! ## Derived descriptions used in the statements -/

/-- The two listeners `attachHover` registers per element, for a list of elements. -/
def hoverListeners : List Element → List Listener
  | [] => []
  | el :: els =>
    ⟨el.id, .mouseenter, .enter el⟩ :: ⟨el.id, .mouseleave, .leave el⟩ :: hoverListeners els

/-- The updates of line 41. -/
def initialSet : List Update :=
  gsapSet .cursor [(.xPercent, .num (-50)), (.yPercent, .num (-50)), (.scale, .num 0.9)]

/-- The registry after an enabled activation on host surface `root`. -/
def activatedListeners (root : Node) (ls : List Listener) : List Listener :=
  ls ++ [⟨root.id, .mousemove, .move⟩]
    ++ hoverListeners (root.descendants.filter hoverableSelector)
    ++ [⟨root.id, .mousedown, .down⟩, ⟨root.id, .mouseup, .up⟩]

/-- Deliver a sequence of events, each at its node and with its type. -/
def run (st : State) (evs : List (Nat × EventType × MouseEvent)) : State :=
  evs.foldl (fun s ev => dispatch s ev.1 ev.2.1 ev.2.2) st

/-- Deliver a sequence of `mousemove` events at the host surface. -/
def deliverMoves (st : State) (root : Node) (moves : List MouseEvent) : State :=
  moves.foldl (fun s e => dispatch s root.id .mousemove e) st

/-- A link of the navigation bar (line 170). -/
def demoLink : Element := ⟨2, "a", [("data-cursor", "tap")]⟩

/-- An image of the hero section (line 201). -/
def demoImage : Element := ⟨3, "img", [("data-cursor", "view")]⟩

/-- A button without a `data-cursor` attribute. -/
def demoButton : Element := ⟨4, "button", []⟩

/-- A host surface with a link and an image below it. -/
def demoHost : Node := ⟨0, [demoLink, demoImage]⟩

/-- The cursor node. -/
def demoCursor : Node := ⟨1, []⟩

/-- A fine-pointer environment with both refs set. -/
def demoEnv : Env := ⟨true, some demoCursor, some demoHost⟩

/-- The position targets of the cursor are the coordinates of event `e`, with
the duration and easing of lines 43-44. -/
def targetsAt (s : State) (e : MouseEvent) : Prop :=
  s.rep .cursor .x = some ⟨.cursor, .x, none, .num e.clientX, 0.18, some "power3.out"⟩ ∧
  s.rep .cursor .y = some ⟨.cursor, .y, none, .num e.clientY, 0.18, some "power3.out"⟩

instance (s : State) (e : MouseEvent) : Decidable (targetsAt s e) := by
  unfold targetsAt
  exact inferInstance

/-! ## The library timeline

None of the `gsap.set`, `gsap.to` and `gsap.fromTo` calls of lines 41-82 passes
`overwrite`, and the library's default is `overwrite: false`: a new tween does
not stop the earlier tweens of the same property.  Every running tween writes
its property on each tick, in creation order, and writes its target a last time
when its duration has elapsed.  So the value a property comes to rest at is the
target of the tween that ends last, the later-created one on a tie; the update
issued last decides it only when its tween does not end before another one. -/

/-- A tween on the timeline: the update and the time, in seconds, at which the
call was made. -/
structure Tween where
  update : Update
  startsAt : ℚ
  deriving DecidableEq, Repr

/-- The time at which a tween writes its target for the last time. -/
def Tween.endsAt (t : Tween) : ℚ :=
  t.startsAt + t.update.duration

/-- The tweens a list of updates issued at time `t` creates, in order. -/
def tweensOf (t : ℚ) (us : List Update) : List Tween :=
  us.map (fun u => ⟨u, t⟩)

/-- One step of the search for the tween that ends last: a tween replaces the
best one so far when it does not end before it. -/
def laterEnding (best : Option Tween) (t : Tween) : Option Tween :=
  match best with
  | none => some t
  | some b => if b.endsAt ≤ t.endsAt then some t else some b

/-- The tween that decides the value a property rests at: of the tweens on that
part and property, in creation order, the one that ends last, the later-created
one on a tie. -/
def restingTween (tl : List Tween) (p : Part) (q : Property) : Option Tween :=
  (tl.filter (fun t => t.update.part = p ∧ t.update.prop = q)).foldl laterEnding none

/-- The updates the listeners registered at a node for an event type issue for
one event, in registration order. -/
def issuedBy (st : State) (target : Nat) (type : EventType) (e : MouseEvent) : List Update :=
  (st.listeners.filter (fun l => l.target = target ∧ l.type = type)).foldl
    (fun us l => us ++ l.callback.call e) []

/-- The timeline after a sequence of timed events: the updates of the state's
trace, issued at time 0, followed by what each event's listeners issued at the
time of the event. -/
def timeline (st : State) (evs : List (ℚ × Nat × EventType × MouseEvent)) : List Tween :=
  evs.foldl (fun tl ev => tl ++ tweensOf ev.1 (issuedBy st ev.2.1 ev.2.2.1 ev.2.2.2))
    (tweensOf 0 st.log)

/-! ## Lemmas on activation -/

theorem foldl_attachHover (els : List Element) (st : State) :
    els.foldl attachHover st
      = ⟨st.listeners ++ hoverListeners els, st.rep, st.log, st.ctx⟩ := by
  induction els generalizing st with
  | nil => simp [hoverListeners]
  | cons el els ih => simp [List.foldl, ih, attachHover, addListener, hoverListeners]

theorem activate_enabled (cursor root : Node) (st : State) :
    activate ⟨true, some cursor, some root⟩ st
      = .ok (⟨activatedListeners root st.listeners, applyAll st.rep initialSet,
              st.log ++ initialSet, st.ctx⟩, ⟨some .move, some .down, some .up⟩) := by
  simp [activate, Env.enabled, addEventListener, querySelectorAll, foldl_attachHover, addListener,
    issue, initialSet, activatedListeners, bind, Except.bind, pure, Except.pure]

theorem activate_disabled (env : Env) (st : State) (h : env.enabled = false) :
    activate env st = .ok (st, ⟨none, none, none⟩) := by
  simp [activate, h, pure, Except.pure]

theorem enabled_iff (env : Env) :
    env.enabled = true ↔
      env.pointerFine = true ∧ env.cursorRef.isSome = true ∧ env.rootRef.isSome = true := by
  simp [Env.enabled, and_assoc]

theorem effect_enabled (cursor root : Node) (st : State) :
    effect ⟨true, some cursor, some root⟩ st
      = .ok (⟨activatedListeners root st.listeners, applyAll st.rep initialSet,
              st.log ++ initialSet, true⟩, ⟨some .move, some .down, some .up⟩) := by
  simp [effect, activate_enabled, createContext, bind, Except.bind, pure, Except.pure]

theorem effect_disabled (env : Env) (st : State) (h : env.enabled = false) :
    effect env st = .ok (⟨st.listeners, st.rep, st.log, true⟩, ⟨none, none, none⟩) := by
  simp [effect, activate_disabled env st h, createContext, bind, Except.bind, pure, Except.pure]

/-! ## Lemmas on dispatch and cleanup -/

theorem foldl_issue_listeners (e : MouseEvent) (ls : List Listener) (s : State) :
    (ls.foldl (fun s l => issue s (l.callback.call e)) s).listeners = s.listeners := by
  induction ls generalizing s with
  | nil => rfl
  | cons l ls ih =>
    simp only [List.foldl]
    rw [ih]
    rfl

theorem dispatch_listeners (st : State) (t : Nat) (ty : EventType) (e : MouseEvent) :
    (dispatch st t ty e).listeners = st.listeners := by
  simp [dispatch, foldl_issue_listeners]

theorem run_listeners (evs : List (Nat × EventType × MouseEvent)) (st : State) :
    (run st evs).listeners = st.listeners := by
  induction evs generalizing st with
  | nil => rfl
  | cons ev evs ih =>
    have := ih (dispatch st ev.1 ev.2.1 ev.2.2)
    simp only [run, List.foldl] at this ⊢
    rw [this, dispatch_listeners]

theorem deliverMoves_listeners (root : Node) (moves : List MouseEvent) (st : State) :
    (deliverMoves st root moves).listeners = st.listeners := by
  induction moves generalizing st with
  | nil => rfl
  | cons e es ih =>
    have := ih (dispatch st root.id .mousemove e)
    simp only [deliverMoves, List.foldl] at this ⊢
    rw [this, dispatch_listeners]

theorem cleanup_ok (hs : Handlers) (rootNow : Option Node) (st : State) :
    ∃ s, cleanup hs rootNow st = .ok s ∧ s.rep = st.rep ∧ s.log = st.log ∧
      (∀ l, l ∈ s.listeners → l ∈ st.listeners) ∧ cleanup hs rootNow s = .ok s := by
  obtain ⟨m, d, u⟩ := hs
  cases rootNow with
  | none => exact ⟨_, rfl, rfl, rfl, fun _ h => h, rfl⟩
  | some n =>
    cases m <;> cases d <;> cases u <;>
      simp [cleanup, removeIfDefined, removeEventListener, revertContext, bind, Except.bind, pure,
        Except.pure, List.filter_filter] <;>
      intro l hl <;> simp_all

theorem move_sets_targets (s : State) (e : MouseEvent) :
    targetsAt (issue s (Callback.move.call e)) e := by
  simp [targetsAt, issue, Callback.call, moveHandler, xTo, yTo, quickTo, applyAll, applyUpdate]

theorem call_keeps_targets (cb : Callback) (s : State) (e : MouseEvent) (h : targetsAt s e) :
    targetsAt (issue s (cb.call e)) e := by
  cases cb with
  | move => exact move_sets_targets s e
  | down =>
    simpa [targetsAt, issue, Callback.call, downHandler, gsapTo, gsapFromTo, applyAll,
      applyUpdate] using h
  | up => simpa [targetsAt, issue, Callback.call, upHandler, gsapTo, applyAll, applyUpdate] using h
  | enter el =>
    by_cases hm : orElse (el.getAttribute "data-cursor") "tap" = "view" <;>
      simpa [targetsAt, issue, Callback.call, mouseenter, hm, gsapTo, applyAll, applyUpdate]
        using h
  | leave el =>
    simpa [targetsAt, issue, Callback.call, mouseleave, gsapTo, applyAll, applyUpdate] using h

theorem foldl_call_targets (e : MouseEvent) (ls : List Listener) (s : State)
    (h : targetsAt s e ∨ ∃ l ∈ ls, l.callback = .move) :
    targetsAt (ls.foldl (fun s l => issue s (l.callback.call e)) s) e := by
  induction ls generalizing s with
  | nil =>
    rcases h with h | ⟨l, hl, _⟩
    · exact h
    · simp at hl
  | cons l ls ih =>
    simp only [List.foldl]
    apply ih
    rcases h with h | ⟨l2, hl, hc⟩
    · exact Or.inl (call_keeps_targets _ _ _ h)
    · rcases List.mem_cons.1 hl with rfl | hl
      · left
        rw [hc]
        exact move_sets_targets s e
      · exact Or.inr ⟨l2, hl, hc⟩

theorem move_mem_activated (root : Node) (ls : List Listener) :
    (⟨root.id, .mousemove, .move⟩ : Listener) ∈ activatedListeners root ls := by
  simp [activatedListeners]

theorem dispatch_of_no_listener (s : State) (t : Nat) (ty : EventType) (e : MouseEvent)
    (h : ∀ l ∈ s.listeners, ¬ (l.target = t ∧ l.type = ty)) :
    dispatch s t ty e = s := by
  have hf : s.listeners.filter (fun l => l.target = t ∧ l.type = ty) = [] := by
    rw [List.filter_eq_nil_iff]
    intro l hl
    simpa using h l hl
  unfold dispatch
  rw [hf]
  rfl

theorem deliverMoves_of_no_listener (root : Node) (moves : List MouseEvent) (s : State)
    (h : ∀ l ∈ s.listeners, ¬ (l.target = root.id ∧ l.type = .mousemove)) :
    deliverMoves s root moves = s := by
  induction moves with
  | nil => rfl
  | cons e es ih =>
    simp only [deliverMoves, List.foldl] at ih ⊢
    rw [dispatch_of_no_listener s root.id .mousemove e h]
    exact ih

theorem hoverListeners_type (els : List Element) (l : Listener) (h : l ∈ hoverListeners els) :
    l.type = .mouseenter ∨ l.type = .mouseleave := by
  induction els with
  | nil => simp [hoverListeners] at h
  | cons el els ih =>
    simp only [hoverListeners, List.mem_cons] at h
    rcases h with rfl | rfl | h
    · exact Or.inl rfl
    · exact Or.inr rfl
    · exact ih h

theorem cleanup_activated (root : Node) (st : State) :
    cleanup ⟨some .move, some .down, some .up⟩ (some root) st
      = .ok ⟨((st.listeners.filter (fun l => l ≠ ⟨root.id, .mousemove, .move⟩)).filter
                (fun l => l ≠ ⟨root.id, .mousedown, .down⟩)).filter
                  (fun l => l ≠ ⟨root.id, .mouseup, .up⟩), st.rep, st.log, false⟩ := by
  rfl

theorem cleanup_null_ref (hs : Handlers) (st : State) :
    cleanup hs none st = .ok ⟨st.listeners, st.rep, st.log, false⟩ := by
  rfl

/-! ## Lemmas on the timeline -/

theorem restingTween_append_one (tl : List Tween) (x : Tween) (p : Part) (q : Property) :
    restingTween (tl ++ [x]) p q
      = if x.update.part = p ∧ x.update.prop = q then laterEnding (restingTween tl p q) x
        else restingTween tl p q := by
  unfold restingTween
  by_cases h : x.update.part = p ∧ x.update.prop = q
  · simp [List.filter_append, List.foldl_append, h]
  · rw [if_neg h, List.filter_append]
    have : [x].filter (fun t => t.update.part = p ∧ t.update.prop = q) = [] := by
      simp [List.filter_cons, h]
    rw [this, List.append_nil]

theorem restingTween_none (tl : List Tween) (p : Part) (q : Property)
    (h : restingTween tl p q = none) :
    ∀ t ∈ tl, ¬ (t.update.part = p ∧ t.update.prop = q) := by
  induction tl using List.reverseRecOn with
  | nil => intro t ht; simp at ht
  | append_singleton tl x ih =>
    rw [restingTween_append_one] at h
    by_cases hx : x.update.part = p ∧ x.update.prop = q
    · rw [if_pos hx] at h
      cases hr : restingTween tl p q with
      | none => rw [hr] at h; simp [laterEnding] at h
      | some b0 =>
        rw [hr] at h
        simp only [laterEnding] at h
        split at h <;> simp at h
    · rw [if_neg hx] at h
      intro t ht
      rcases List.mem_append.1 ht with ht | ht
      · exact ih h t ht
      · simp at ht
        rw [ht]
        exact hx

theorem restingTween_ends_last (tl : List Tween) (p : Part) (q : Property) (b : Tween)
    (hb : restingTween tl p q = some b) :
    ∀ t ∈ tl, t.update.part = p ∧ t.update.prop = q → t.endsAt ≤ b.endsAt := by
  induction tl using List.reverseRecOn generalizing b with
  | nil => intro t ht; simp at ht
  | append_singleton tl x ih =>
    rw [restingTween_append_one] at hb
    intro t ht hpq
    by_cases hx : x.update.part = p ∧ x.update.prop = q
    · rw [if_pos hx] at hb
      cases hr : restingTween tl p q with
      | none =>
        rw [hr] at hb
        simp only [laterEnding, Option.some.injEq] at hb
        subst hb
        rcases List.mem_append.1 ht with h | h
        · exact absurd hpq (restingTween_none tl p q hr t h)
        · simp at h
          rw [h]
      | some b0 =>
        rw [hr] at hb
        simp only [laterEnding] at hb
        by_cases hle : b0.endsAt ≤ x.endsAt
        · rw [if_pos hle] at hb
          simp only [Option.some.injEq] at hb
          subst hb
          rcases List.mem_append.1 ht with h | h
          · exact le_trans (ih b0 hr t h hpq) hle
          · simp at h
            rw [h]
        · rw [if_neg hle] at hb
          simp only [Option.some.injEq] at hb
          subst hb
          rcases List.mem_append.1 ht with h | h
          · exact ih _ hr t h hpq
          · simp at h
            rw [h]
            exact le_of_lt (lt_of_not_le hle)
    · rw [if_neg hx] at hb
      rcases List.mem_append.1 ht with h | h
      · exact ih b hb t h hpq
      · simp at h
        rw [h] at hpq
        exact absurd hpq hx

theorem restingTween_append_later (tl : List Tween) (x : Tween) (p : Part) (q : Property)
    (hx : x.update.part = p ∧ x.update.prop = q)
    (h : ∀ b, restingTween tl p q = some b → b.endsAt ≤ x.endsAt) :
    restingTween (tl ++ [x]) p q = some x := by
  rw [restingTween_append_one, if_pos hx]
  cases hr : restingTween tl p q with
  | none => rfl
  | some b => simp [laterEnding, h b hr]

theorem dispatch_log (st : State) (t : Nat) (ty : EventType) (e : MouseEvent) :
    (dispatch st t ty e).log = st.log ++ issuedBy st t ty e := by
  unfold dispatch issuedBy
  generalize st.listeners.filter (fun l => l.target = t ∧ l.type = ty) = ls
  have key : ∀ (ls : List Listener) (s : State) (us : List Update),
      (ls.foldl (fun s l => issue s (l.callback.call e)) s).log
        = s.log ++ (ls.foldl (fun us l => us ++ l.callback.call e) []) := by
    intro ls
    induction ls using List.reverseRecOn with
    | nil => intro s _; simp
    | append_singleton ls l ih =>
      intro s us
      simp only [List.foldl_append, List.foldl]
      rw [show (issue (ls.foldl (fun s l => issue s (l.callback.call e)) s) (l.callback.call e)).log
            = (ls.foldl (fun s l => issue s (l.callback.call e)) s).log ++ l.callback.call e from rfl,
          ih s us, List.append_assoc]
  exact key ls st []

/-! ## The claims -/

/-- C1, evaluated on the code: a fine-pointer page whose host surface holds a
link and an image is activated from the initial page and then cleaned up while
`rootRef.current` still is the host surface.  The three listeners of the host
surface are gone, but the `mouseenter` and `mouseleave` listeners of both
hoverable elements are still registered: the cleanup of lines 123-130 never
removes them. -/
theorem hover_listeners_survive_cleanup :
    (lifecycle demoEnv (some demoHost) State.init).toOption.map State.listeners
      = some [⟨2, .mouseenter, .enter demoLink⟩, ⟨2, .mouseleave, .leave demoLink⟩,
              ⟨3, .mouseenter, .enter demoImage⟩, ⟨3, .mouseleave, .leave demoImage⟩] := by
  decide

/-- C2: the effect never throws, whatever the environment.  When the
fine-pointer query is false, or the cursor node is absent, or the host surface
is absent, it registers no listener, issues no update to the cursor
representation and leaves the three handler variables undefined.  The listener
registry changes only when all three conditions hold. -/
theorem activation_noop_unless_enabled (env : Env) (st : State) :
    ∃ r, effect env st = .ok r ∧
      ((env.pointerFine = false ∨ env.cursorRef = none ∨ env.rootRef = none) →
        r.1.listeners = st.listeners ∧ r.1.log = st.log ∧ r.1.rep = st.rep
          ∧ r.2 = ⟨none, none, none⟩) ∧
      (r.1.listeners ≠ st.listeners →
        env.pointerFine = true ∧ env.cursorRef.isSome = true ∧ env.rootRef.isSome = true) := by
  cases hen : env.enabled with
  | false =>
    refine ⟨_, effect_disabled env st hen, fun _ => ⟨rfl, rfl, rfl, rfl⟩, fun hne => ?_⟩
    exact absurd rfl hne
  | true =>
    obtain ⟨pf, c, r⟩ := env
    have h3 := (enabled_iff _).1 hen
    simp only [] at h3
    obtain ⟨h1, h2, h3⟩ := h3
    cases c with
    | none => simp at h2
    | some cursor =>
      cases r with
      | none => simp at h3
      | some root =>
        subst h1
        refine ⟨_, effect_enabled cursor root st, fun h => ?_, fun _ => ⟨rfl, rfl, rfl⟩⟩
        simp at h

/-- Instance of C2: a coarse-pointer environment with both refs set. -/
theorem activation_noop_unless_enabled_witness :
    ∃ r, effect ⟨false, some demoCursor, some demoHost⟩ State.init = .ok r ∧
      r.1.listeners = [] ∧ r.1.log = [] := by
  obtain ⟨r, h1, h2, _⟩ :=
    activation_noop_unless_enabled ⟨false, some demoCursor, some demoHost⟩ State.init
  exact ⟨r, h1, (h2 (Or.inl rfl)).1, (h2 (Or.inl rfl)).2.1⟩

/-- C3 as stated fails: on the demo page, entering the image puts the scale
target at 1.25 (0.2s); after a press down and a press up on the host surface
the scale target is 1.0 (0.12s), not the 1.25 of the hovering state the press
interrupted. -/
theorem press_forgets_hover_scale :
    ∃ s, effect demoEnv State.init = .ok s ∧
      (run s.1 [(3, .mouseenter, ⟨0, 0⟩)]).rep .cursor .scale
        = some ⟨.cursor, .scale, none, .num 1.25, 0.2, none⟩ ∧
      (run s.1 [(3, .mouseenter, ⟨0, 0⟩), (0, .mousedown, ⟨0, 0⟩), (0, .mouseup, ⟨0, 0⟩)]).rep
          .cursor .scale
        = some ⟨.cursor, .scale, none, .num 1.0, 0.12, none⟩ ∧
      (run s.1 [(3, .mouseenter, ⟨0, 0⟩), (0, .mousedown, ⟨0, 0⟩), (0, .mouseup, ⟨0, 0⟩)]).rep
          .cursor .scale
        ≠ (run s.1 [(3, .mouseenter, ⟨0, 0⟩)]).rep .cursor .scale := by
  refine ⟨_, effect_enabled demoCursor demoHost State.init, ?_⟩
  simp [run, dispatch, activatedListeners, hoverListeners, demoHost, demoLink, demoImage,
    hoverableSelector, Element.getAttribute, State.init, issue, Callback.call, mouseenter, orElse,
    downHandler, upHandler, gsapTo, gsapFromTo, applyAll, applyUpdate]
  norm_num

/-- C3 as amended: from every state of the representation, `downHandler`
followed by `upHandler` leaves the fill color, border color and icon rotation
targets as they were before the press, and puts the scale target at 1.0 over
0.12s whatever it was before. -/
theorem press_restores_all_but_scale (rep : Rep) :
    applyAll (applyAll rep downHandler) upHandler .cursor .backgroundColor
        = rep .cursor .backgroundColor ∧
      applyAll (applyAll rep downHandler) upHandler .cursor .borderColor
        = rep .cursor .borderColor ∧
      applyAll (applyAll rep downHandler) upHandler .icon .rotate = rep .icon .rotate ∧
      applyAll (applyAll rep downHandler) upHandler .cursor .scale
        = some ⟨.cursor, .scale, none, .num 1.0, 0.12, none⟩ := by
  simp [downHandler, upHandler, gsapTo, gsapFromTo, applyAll, applyUpdate]

/-- C4: from every state of the representation and for every element, the
`mouseleave` listener puts the targets at the baseline: scale 0.95, fill
`rgba(255,255,255,0.5)`, border `rgba(15,23,42,0.2)`, icon rotation 0, each over
0.25s.  An enter followed by a leave ends in the same representation as the
leave alone, for every mode, and a second leave changes nothing. -/
theorem leave_gives_baseline (rep : Rep) (el el2 : Element) :
    applyAll rep (mouseleave el) .cursor .scale
        = some ⟨.cursor, .scale, none, .num 0.95, 0.25, none⟩ ∧
      applyAll rep (mouseleave el) .cursor .backgroundColor
        = some ⟨.cursor, .backgroundColor, none, .str "rgba(255,255,255,0.5)", 0.25, none⟩ ∧
      applyAll rep (mouseleave el) .cursor .borderColor
        = some ⟨.cursor, .borderColor, none, .str "rgba(15,23,42,0.2)", 0.25, none⟩ ∧
      applyAll rep (mouseleave el) .icon .rotate
        = some ⟨.icon, .rotate, none, .num 0, 0.25, none⟩ ∧
      applyAll (applyAll rep (mouseenter el)) (mouseleave el) = applyAll rep (mouseleave el) ∧
      applyAll (applyAll rep (mouseleave el)) (mouseleave el2) = applyAll rep (mouseleave el) := by
  refine ⟨?_, ?_, ?_, ?_, ?_, ?_⟩
  · simp [mouseleave, gsapTo, applyAll, applyUpdate]
  · simp [mouseleave, gsapTo, applyAll, applyUpdate]
  · simp [mouseleave, gsapTo, applyAll, applyUpdate]
  · simp [mouseleave, gsapTo, applyAll, applyUpdate]
  · funext p q
    by_cases hm : orElse (el.getAttribute "data-cursor") "tap" = "view" <;>
      cases p <;> cases q <;>
      simp [mouseleave, mouseenter, hm, gsapTo, applyAll, applyUpdate]
  · funext p q
    cases p <;> cases q <;> simp [mouseleave, gsapTo, applyAll, applyUpdate]

/-- C5: for every element whose `data-cursor` attribute is absent, empty or any
value other than `"view"`, the `mouseenter` listener issues exactly the updates
it issues for an element tagged `"tap"`: scale 1.15, fill
`rgba(15, 23, 42, 0.08)`, border `rgb(71, 85, 105)`, icon rotation 0, over 0.2s.
The listener is a total function: no attribute value makes it fail. -/
theorem enter_defaults_to_tap (el tapEl : Element)
    (htap : tapEl.getAttribute "data-cursor" = some "tap")
    (h : el.getAttribute "data-cursor" ≠ some "view") :
    mouseenter el = mouseenter tapEl ∧
      mouseenter el =
        [⟨.cursor, .scale, none, .num 1.15, 0.2, none⟩,
         ⟨.cursor, .backgroundColor, none, .str "rgba(15, 23, 42, 0.08)", 0.2, none⟩,
         ⟨.cursor, .borderColor, none, .str "rgb(71, 85, 105)", 0.2, none⟩,
         ⟨.icon, .rotate, none, .num 0, 0.2, none⟩] := by
  have hm : orElse (el.getAttribute "data-cursor") "tap" ≠ "view" := by
    cases hα : el.getAttribute "data-cursor" with
    | none => simp [orElse]
    | some s =>
      rw [hα] at h
      by_cases hs : s = ""
      · simp [orElse, hs]
      · simp only [orElse, hs, if_false]
        intro hv
        exact h (by rw [hv])
  have ht : orElse (tapEl.getAttribute "data-cursor") "tap" ≠ "view" := by
    simp [htap, orElse]
  simp [mouseenter, hm, ht, gsapTo]

/-- Instance of C5: no attribute, an unknown value and the empty value. -/
theorem enter_defaults_to_tap_witness :
    mouseenter demoButton = mouseenter demoLink ∧
      mouseenter ⟨5, "div", [("data-cursor", "zoom")]⟩ = mouseenter demoLink ∧
      mouseenter ⟨6, "div", [("data-cursor", "")]⟩ = mouseenter demoLink :=
  ⟨(enter_defaults_to_tap demoButton demoLink (by decide) (by decide)).1,
   (enter_defaults_to_tap ⟨5, "div", [("data-cursor", "zoom")]⟩ demoLink (by decide) (by decide)).1,
   (enter_defaults_to_tap ⟨6, "div", [("data-cursor", "")]⟩ demoLink (by decide) (by decide)).1⟩

/-- C6: when the guard is false, the effect followed by its cleanup throws
nothing and leaves the listener registry, the update trace and the
representation as they were before the effect, for every value of
`rootRef.current` at teardown.  For every state, every value of the handler
variables and every value of `rootRef.current`, the cleanup throws nothing and
running it a second time returns the state the first run returned. -/
theorem cleanup_idempotent_and_safe (env : Env) (hs : Handlers) (rootNow : Option Node)
    (st : State) :
    (env.enabled = false →
      ∃ r s, effect env st = .ok r ∧ cleanup r.2 rootNow r.1 = .ok s ∧
        s.listeners = st.listeners ∧ s.log = st.log ∧ s.rep = st.rep) ∧
    (∃ s, cleanup hs rootNow st = .ok s ∧ cleanup hs rootNow s = .ok s) := by
  constructor
  · intro h
    refine ⟨_, ⟨st.listeners, st.rep, st.log, false⟩, effect_disabled env st h, ?_, rfl, rfl, rfl⟩
    cases rootNow <;> rfl
  · obtain ⟨s, h1, _, _, _, h2⟩ := cleanup_ok hs rootNow st
    exact ⟨s, h1, h2⟩

/-- Instance of C6: cleanup without activation, and cleanup run twice. -/
theorem cleanup_idempotent_and_safe_witness :
    (∃ r s, effect ⟨false, none, none⟩ State.init = .ok r ∧ cleanup r.2 none r.1 = .ok s ∧
        s.listeners = [] ∧ s.log = [] ∧ s.rep = Rep.empty) ∧
    (∃ s, cleanup ⟨some .move, some .down, some .up⟩ (some demoHost) State.init = .ok s
      ∧ cleanup ⟨some .move, some .down, some .up⟩ (some demoHost) s = .ok s) :=
  ⟨(cleanup_idempotent_and_safe ⟨false, none, none⟩ ⟨some .move, some .down, some .up⟩ none
      State.init).1 rfl,
   (cleanup_idempotent_and_safe ⟨false, none, none⟩ ⟨some .move, some .down, some .up⟩
      (some demoHost) State.init).2⟩

/-- C7: after an enabled activation, for every non-empty sequence of
`mousemove` events delivered at the host surface, the x and y targets of the
cursor are the `clientX` and `clientY` of the last event of the sequence (0.18s,
`power3.out`), whatever the earlier events and the state before activation
were. -/
theorem last_move_is_target (cursor root : Node) (st0 : State) (moves : List MouseEvent)
    (h : moves ≠ []) :
    ∃ r, effect ⟨true, some cursor, some root⟩ st0 = .ok r ∧
      (deliverMoves r.1 root moves).rep .cursor .x
        = some ⟨.cursor, .x, none, .num (moves.getLast h).clientX, 0.18, some "power3.out"⟩ ∧
      (deliverMoves r.1 root moves).rep .cursor .y
        = some ⟨.cursor, .y, none, .num (moves.getLast h).clientY, 0.18, some "power3.out"⟩ := by
  refine ⟨_, effect_enabled cursor root st0, ?_⟩
  have hsplit : moves = moves.dropLast ++ [moves.getLast h] :=
    (List.dropLast_append_getLast h).symm
  generalize moves.getLast h = e at hsplit ⊢
  generalize moves.dropLast = es at hsplit
  subst hsplit
  simp only [deliverMoves, List.foldl_append, List.foldl]
  apply foldl_call_targets
  right
  refine ⟨⟨root.id, .mousemove, .move⟩, ?_, rfl⟩
  have hl := deliverMoves_listeners root es
    ⟨activatedListeners root st0.listeners, applyAll st0.rep initialSet, st0.log ++ initialSet, true⟩
  simp only [deliverMoves] at hl
  rw [List.mem_filter, hl]
  exact ⟨move_mem_activated root _, by simp⟩

/-- Instance of C7: two moves on the demo page. -/
theorem last_move_is_target_witness :
    ∃ r, effect demoEnv State.init = .ok r ∧
      (deliverMoves r.1 demoHost [⟨10, 20⟩, ⟨100, 100⟩]).rep .cursor .x
        = some ⟨.cursor, .x, none, .num 100, 0.18, some "power3.out"⟩ := by
  obtain ⟨r, h1, h2, _⟩ :=
    last_move_is_target demoCursor demoHost State.init [⟨10, 20⟩, ⟨100, 100⟩] (by simp)
  exact ⟨r, h1, h2⟩

/-- C8, evaluated on the code: the demo page is activated and cleaned up with
`rootRef.current` being `null` at teardown, as it is when the component
unmounts.  Line 125 then skips the three removals of lines 126-128, so a later
`mousemove` at the host surface still runs `moveHandler`: its two updates are
issued and the x target, unset before, becomes 100. -/
theorem moves_still_handled_when_ref_cleared :
    ∃ s, lifecycle demoEnv none State.init = .ok s ∧
      (dispatch s demoHost.id .mousemove ⟨100, 100⟩).log = s.log ++ moveHandler ⟨100, 100⟩ ∧
      (dispatch s demoHost.id .mousemove ⟨100, 100⟩).rep .cursor .x
        = some ⟨.cursor, .x, none, .num 100, 0.18, some "power3.out"⟩ ∧
      s.rep .cursor .x = none := by
  refine ⟨⟨activatedListeners demoHost [], applyAll Rep.empty initialSet, initialSet, false⟩,
    ?_, ?_⟩
  · simp [lifecycle, demoEnv, effect_enabled, cleanup, revertContext, State.init, bind,
      Except.bind, pure, Except.pure]
  · simp [dispatch, activatedListeners, hoverListeners, demoHost, demoLink, demoImage,
      hoverableSelector, Element.getAttribute, issue, Callback.call, moveHandler, xTo, yTo,
      quickTo, applyAll, applyUpdate, initialSet, gsapSet, Rep.empty]

/-- The path of the cleanup on which the removal of lines 126-128 does
happen: on a host surface without `mousemove` listeners before activation,
after an enabled activation, any events, and a cleanup run while
`rootRef.current` still is the host surface, every sequence of `mousemove`
events at the host surface leaves the whole state unchanged: no update is
issued. -/
theorem moves_after_cleanup_do_nothing (cursor root : Node) (st0 : State)
    (h0 : ∀ l ∈ st0.listeners, ¬ (l.target = root.id ∧ l.type = .mousemove))
    (evs : List (Nat × EventType × MouseEvent)) (moves : List MouseEvent) :
    ∃ r s, effect ⟨true, some cursor, some root⟩ st0 = .ok r ∧
      cleanup r.2 (some root) (run r.1 evs) = .ok s ∧
      deliverMoves s root moves = s := by
  refine ⟨_, _, effect_enabled cursor root st0, cleanup_activated root _, ?_⟩
  apply deliverMoves_of_no_listener
  intro l hl
  simp only [run_listeners, List.mem_filter, activatedListeners, List.mem_append] at hl
  obtain ⟨⟨⟨hmem, hne⟩, _⟩, _⟩ := hl
  rintro ⟨ht, hty⟩
  rcases hmem with ((hmem | hmem) | hmem) | hmem
  · exact h0 l hmem ⟨ht, hty⟩
  · simp at hmem
    simp [hmem] at hne
  · rcases hoverListeners_type _ l hmem with h | h <;> rw [hty] at h <;> cases h
  · simp at hmem
    rcases hmem with rfl | rfl <;> cases hty

/-- Instance of the path with the ref set: the demo page, a hover, cleanup,
then a move. -/
theorem moves_after_cleanup_do_nothing_witness :
    ∃ r s, effect demoEnv State.init = .ok r ∧
      cleanup r.2 (some demoHost) (run r.1 [(3, .mouseenter, ⟨0, 0⟩)]) = .ok s ∧
      deliverMoves s demoHost [⟨100, 100⟩] = s :=
  moves_after_cleanup_do_nothing demoCursor demoHost State.init (by simp [State.init])
    [(3, .mouseenter, ⟨0, 0⟩)] [⟨100, 100⟩]

/-- C9: `upHandler` issues the single update scale 1.0 over 0.12s on the
cursor.  From every state of the representation the scale target after it is
1.0 (0.12s), also when `downHandler` ran just before, and every other part and
property keeps the update it had. -/
theorem up_sets_scale_only (rep : Rep) :
    upHandler = [⟨.cursor, .scale, none, .num 1.0, 0.12, none⟩] ∧
      applyAll rep upHandler .cursor .scale = some ⟨.cursor, .scale, none, .num 1.0, 0.12, none⟩ ∧
      applyAll (applyAll rep downHandler) upHandler .cursor .scale
        = some ⟨.cursor, .scale, none, .num 1.0, 0.12, none⟩ ∧
      (∀ p q, ¬ (p = .cursor ∧ q = .scale) → applyAll rep upHandler p q = rep p q) := by
  refine ⟨rfl, ?_, ?_, ?_⟩
  · simp [upHandler, gsapTo, applyAll, applyUpdate]
  · simp [upHandler, gsapTo, applyAll, applyUpdate]
  · intro p q h
    simp [upHandler, gsapTo, applyAll, applyUpdate, h]

/-- Instance of C9: the border color of a hovered image survives the press up. -/
theorem up_sets_scale_only_witness :
    applyAll (applyAll Rep.empty (mouseenter demoImage)) upHandler .cursor .borderColor
      = applyAll Rep.empty (mouseenter demoImage) .cursor .borderColor :=
  (up_sets_scale_only (applyAll Rep.empty (mouseenter demoImage))).2.2.2 .cursor .borderColor
    (by decide)

/-- The updates the `mouseenter` listener issues, as the record of the latest
call: from every state of the representation, an element tagged `"view"` gives
scale 1.25, fill `rgba(251, 191, 36, 0.15)`, border `rgb(245, 158, 11)`, icon
rotation 8, and an element tagged `"tap"` gives scale 1.15, fill
`rgba(15, 23, 42, 0.08)`, border `rgb(71, 85, 105)`, icon rotation 0, each over
0.2s.  This says what was issued, not where the cursor comes to rest. -/
theorem enter_targets_by_mode (rep : Rep) (el : Element) :
    (el.getAttribute "data-cursor" = some "view" →
      applyAll rep (mouseenter el) .cursor .scale
          = some ⟨.cursor, .scale, none, .num 1.25, 0.2, none⟩ ∧
        applyAll rep (mouseenter el) .cursor .backgroundColor
          = some ⟨.cursor, .backgroundColor, none, .str "rgba(251, 191, 36, 0.15)", 0.2, none⟩ ∧
        applyAll rep (mouseenter el) .cursor .borderColor
          = some ⟨.cursor, .borderColor, none, .str "rgb(245, 158, 11)", 0.2, none⟩ ∧
        applyAll rep (mouseenter el) .icon .rotate
          = some ⟨.icon, .rotate, none, .num 8, 0.2, none⟩) ∧
    (el.getAttribute "data-cursor" = some "tap" →
      applyAll rep (mouseenter el) .cursor .scale
          = some ⟨.cursor, .scale, none, .num 1.15, 0.2, none⟩ ∧
        applyAll rep (mouseenter el) .cursor .backgroundColor
          = some ⟨.cursor, .backgroundColor, none, .str "rgba(15, 23, 42, 0.08)", 0.2, none⟩ ∧
        applyAll rep (mouseenter el) .cursor .borderColor
          = some ⟨.cursor, .borderColor, none, .str "rgb(71, 85, 105)", 0.2, none⟩ ∧
        applyAll rep (mouseenter el) .icon .rotate
          = some ⟨.icon, .rotate, none, .num 0, 0.2, none⟩) := by
  constructor
  · intro h
    simp [mouseenter, h, orElse, gsapTo, applyAll, applyUpdate]
  · intro h
    simp [mouseenter, h, orElse, gsapTo, applyAll, applyUpdate]

/-- Instance of the issued updates: entering the image after a leave, and
entering the link. -/
theorem enter_targets_by_mode_witness :
    applyAll (applyAll Rep.empty (mouseleave demoLink)) (mouseenter demoImage) .cursor .scale
        = some ⟨.cursor, .scale, none, .num 1.25, 0.2, none⟩ ∧
      applyAll Rep.empty (mouseenter demoLink) .cursor .scale
        = some ⟨.cursor, .scale, none, .num 1.15, 0.2, none⟩ :=
  ⟨((enter_targets_by_mode (applyAll Rep.empty (mouseleave demoLink)) demoImage).1
      (by decide)).1,
   ((enter_targets_by_mode Rep.empty demoLink).2 (by decide)).1⟩


/-- C11: `downHandler` issues three updates and no other: scale 0.8 over 0.08s
on the cursor, and on the ring one pulse, scale from 0.8 to 1.5 and opacity from
0.9 to 0 over 0.35s with `power2.out`.  From every state of the representation
the cursor scale and the two ring properties hold exactly these updates after a
press, start values included, so a press during a pulse gives the same ring
state as a press on an idle ring, and a second press leaves the representation
of the first.  No other function object (move, hover enter, hover leave, press
up) issues an update to the ring, and neither does the initial `gsap.set`. -/
theorem down_pulses_ring (rep : Rep) (e : MouseEvent) :
    downHandler =
        [⟨.cursor, .scale, none, .num 0.8, 0.08, none⟩,
         ⟨.ring, .scale, some (.num 0.8), .num 1.5, 0.35, some "power2.out"⟩,
         ⟨.ring, .opacity, some (.num 0.9), .num 0, 0.35, some "power2.out"⟩] ∧
      applyAll rep downHandler .cursor .scale
        = some ⟨.cursor, .scale, none, .num 0.8, 0.08, none⟩ ∧
      applyAll rep downHandler .ring .scale
        = some ⟨.ring, .scale, some (.num 0.8), .num 1.5, 0.35, some "power2.out"⟩ ∧
      applyAll rep downHandler .ring .opacity
        = some ⟨.ring, .opacity, some (.num 0.9), .num 0, 0.35, some "power2.out"⟩ ∧
      applyAll (applyAll rep downHandler) downHandler = applyAll rep downHandler ∧
      (∀ cb : Callback, cb ≠ .down → ∀ u ∈ cb.call e, u.part ≠ .ring) ∧
      (∀ u ∈ initialSet, u.part ≠ .ring) := by
  have hd : downHandler =
      [⟨.cursor, .scale, none, .num 0.8, 0.08, none⟩,
       ⟨.ring, .scale, some (.num 0.8), .num 1.5, 0.35, some "power2.out"⟩,
       ⟨.ring, .opacity, some (.num 0.9), .num 0, 0.35, some "power2.out"⟩] := by
    have hne : (Property.opacity == Property.scale) = false := by decide
    simp [downHandler, gsapTo, gsapFromTo, List.lookup, hne]
  refine ⟨hd, ?_, ?_, ?_, ?_, ?_, ?_⟩
  · simp [hd, applyAll, applyUpdate]
  · simp [hd, applyAll, applyUpdate]
  · simp [hd, applyAll, applyUpdate]
  · funext p q
    cases p <;> cases q <;> simp [hd, applyAll, applyUpdate]
  · intro cb hcb u hu
    cases cb with
    | move =>
      simp [Callback.call, moveHandler, xTo, yTo, quickTo] at hu
      rcases hu with rfl | rfl <;> simp
    | down => exact absurd rfl hcb
    | up =>
      simp [Callback.call, upHandler, gsapTo] at hu
      subst hu
      simp
    | enter el =>
      by_cases hm : orElse (el.getAttribute "data-cursor") "tap" = "view" <;>
        simp [Callback.call, mouseenter, hm, gsapTo] at hu <;>
        rcases hu with rfl | rfl | rfl | rfl <;> simp
    | leave el =>
      simp [Callback.call, mouseleave, gsapTo] at hu
      rcases hu with rfl | rfl | rfl | rfl <;> simp
  · intro u hu
    simp [initialSet, gsapSet] at hu
    rcases hu with rfl | rfl | rfl <;> simp

/-- Instance of C11: the press up and the enter of the image leave the ring alone. -/
theorem down_pulses_ring_witness :
    (∀ u ∈ Callback.up.call ⟨0, 0⟩, u.part ≠ .ring) ∧
      (∀ u ∈ (Callback.enter demoImage).call ⟨0, 0⟩, u.part ≠ .ring) :=
  ⟨(down_pulses_ring Rep.empty ⟨0, 0⟩).2.2.2.2.2.1 .up (by decide),
   (down_pulses_ring Rep.empty ⟨0, 0⟩).2.2.2.2.2.1 (.enter demoImage) (by decide)⟩

/-- C10, evaluated on the code: on the demo page the pointer leaves the link at
2.00s and enters the image, tagged `"view"`, at 2.04s.  The update issued last
on the cursor scale is the enter's 1.25 over 0.2s, but its tween ends at 2.24s
and the leave's tween, which no call stopped, ends at 2.25s: scale, fill, border
and icon rotation come to rest at the baseline of the leave, 0.95,
`rgba(255,255,255,0.5)`, `rgba(15,23,42,0.2)` and 0, with the pointer over the
image.  An enter 0.05s after the leave does decide the scale. -/
theorem enter_loses_to_leave_in_flight :
    ∃ s, effect demoEnv State.init = .ok s ∧
      (run s.1 [(2, .mouseleave, ⟨0, 0⟩), (3, .mouseenter, ⟨0, 0⟩)]).rep .cursor .scale
        = some ⟨.cursor, .scale, none, .num 1.25, 0.2, none⟩ ∧
      restingTween (timeline s.1 [(2, 2, .mouseleave, ⟨0, 0⟩), (2.04, 3, .mouseenter, ⟨0, 0⟩)])
          .cursor .scale
        = some ⟨⟨.cursor, .scale, none, .num 0.95, 0.25, none⟩, 2⟩ ∧
      restingTween (timeline s.1 [(2, 2, .mouseleave, ⟨0, 0⟩), (2.04, 3, .mouseenter, ⟨0, 0⟩)])
          .cursor .backgroundColor
        = some ⟨⟨.cursor, .backgroundColor, none, .str "rgba(255,255,255,0.5)", 0.25, none⟩, 2⟩ ∧
      restingTween (timeline s.1 [(2, 2, .mouseleave, ⟨0, 0⟩), (2.04, 3, .mouseenter, ⟨0, 0⟩)])
          .cursor .borderColor
        = some ⟨⟨.cursor, .borderColor, none, .str "rgba(15,23,42,0.2)", 0.25, none⟩, 2⟩ ∧
      restingTween (timeline s.1 [(2, 2, .mouseleave, ⟨0, 0⟩), (2.04, 3, .mouseenter, ⟨0, 0⟩)])
          .icon .rotate
        = some ⟨⟨.icon, .rotate, none, .num 0, 0.25, none⟩, 2⟩ ∧
      restingTween (timeline s.1 [(2, 2, .mouseleave, ⟨0, 0⟩), (2.05, 3, .mouseenter, ⟨0, 0⟩)])
          .cursor .scale
        = some ⟨⟨.cursor, .scale, none, .num 1.25, 0.2, none⟩, 2.05⟩ := by
  refine ⟨_, effect_enabled demoCursor demoHost State.init, ?_⟩
  simp [run, dispatch, timeline, issuedBy, tweensOf, restingTween, laterEnding, Tween.endsAt,
    activatedListeners, hoverListeners, demoHost, demoLink, demoImage,
    hoverableSelector, Element.getAttribute, State.init, issue, Callback.call, mouseenter,
    mouseleave, orElse, gsapTo, gsapSet, initialSet, applyAll, applyUpdate]
  norm_num

end LensBros
